import Mathlib

/-!
Verification of the orchestration logic of `auto_ml/predictor.py` (class
`Predictor`) through a shallow embedding into Lean.

We embed the pure decision logic of the predictor: estimator-kind
normalisation (`__init__`), target cleaning (`_prepare_for_training`),
search-space construction (`_construct_pipeline_search_params` and
`_get_estimator_names`), pipeline-stage assembly (`_construct_pipeline`),
the best-pipeline selection at the end of `train`, the log-transform of
regression targets in `train`, the `take_log_of_y` attribute flow on
the classifier path of `train`, and the inverse-exponentiation loop of
`predict`.  The actual model fitting performed by the external
grid-search library is outside the embedded program: grid-search objects
are modelled by opaque identifiers and their scores by rationals.

Python exceptions are modelled with `Except PyErr` (or an explicitly
threaded state plus error), numeric values with `ℚ` (and `ℝ` where the
natural exponential/logarithm themselves matter).
-/

/-- The kinds of Python exceptions the embedded code can raise. -/
inductive PyErr where
  | valueError
  | nameError
  | typeError
  | indexError
  | attributeError
deriving DecidableEq, Repr

/-- A raw target value as it appears in the training data: a number
(Python int or float, collapsed into `ℚ`) or a string. -/
inductive RawVal where
  | vnum (q : ℚ)
  | vstr (s : String)
deriving DecidableEq, Repr

/-- Value of a non-empty list of decimal digit characters. -/
def digitsToNat (ds : List Char) : ℕ :=
  ds.foldl (fun a c => 10 * a + (c.toNat - 48)) 0

/-- Strips an optional leading sign; the boolean is true for a negative
sign. -/
def splitSignChars (cs : List Char) : Bool × List Char :=
  match cs with
  | '-' :: r => (true, r)
  | '+' :: r => (false, r)
  | _ => (false, cs)

/-- Model of Python `float(s)` on a string: an optional sign followed by
a decimal literal (digits with at most one point, at least one digit);
the value `d₁.d₂` is `±(d₁·10^|d₂| + d₂) / 10^|d₂|`.  Exponent
notation, inf/nan and surrounding whitespace are not modelled; none of
the claims depend on them. -/
def parseFloatString (s : String) : Option ℚ :=
  let p := splitSignChars s.toList
  let sgn : ℤ := if p.1 then -1 else 1
  match p.2.splitOn '.' with
  | [ip] =>
      if ip.all Char.isDigit ∧ ip ≠ [] then some ((sgn * digitsToNat ip : ℤ) : ℚ)
      else none
  | [ip, fp] =>
      if ip.all Char.isDigit ∧ fp.all Char.isDigit ∧ (ip ≠ [] ∨ fp ≠ []) then
        some (mkRat (sgn * (digitsToNat ip * 10 ^ fp.length + digitsToNat fp))
          (10 ^ fp.length))
      else none
  | _ => none

/-- Model of Python `int(s)` on a string: an optional sign followed by a
non-empty run of decimal digits (so `int("7.5")` fails while
`float("7.5")` succeeds, as in Python). -/
def parseIntString (s : String) : Option ℤ :=
  let p := splitSignChars s.toList
  let sgn : ℤ := if p.1 then -1 else 1
  if p.2.all Char.isDigit ∧ p.2 ≠ [] then some (sgn * digitsToNat p.2)
  else none

/-- Python `float(val)`: numbers pass through, strings are parsed;
`none` models the coercion raising. -/
def pyFloat : RawVal → Option ℚ
  | .vnum q => some q
  | .vstr s => parseFloatString s

/-- Truncation toward zero, as Python `int()` applied to a float. -/
def pyTruncToInt (q : ℚ) : ℤ :=
  if 0 ≤ q then ⌊q⌋ else ⌈q⌉

/-- Python `int(val)`: numbers are truncated toward zero, strings are
parsed as integer literals; `none` models the coercion raising. -/
def pyInt : RawVal → Option ℤ
  | .vnum q => some (pyTruncToInt q)
  | .vstr s => parseIntString s

/-!
## Target preparation (`Predictor._prepare_for_training`, lines 124-168)

The regression branch walks `enumerate(y)`, appending coercible values
to `y_floats` and recording the index and original value of each failure
in `indices_to_delete` / `bad_vals`; afterwards, when at least one index
was recorded, `X` is rebuilt keeping only rows whose index is not in the
recorded set.  `floatScanFrom k y` returns the three lists the loop
builds, for a scan whose first element has index `k`.
-/

def floatScanFrom (k : ℕ) : List RawVal → List ℚ × List ℕ × List RawVal
  | [] => ([], [], [])
  | v :: rest =>
      let r := floatScanFrom (k + 1) rest
      match pyFloat v with
      | some q => (q :: r.1, r.2.1, r.2.2)
      | none => (r.1, k :: r.2.1, v :: r.2.2)

/-- Result of `_prepare_for_training` on the regression path: the kept
feature rows, the coerced targets, and the reported dropped indices and
offending values. -/
structure PrepResult (α : Type) where
  keptX : List α
  keptY : List ℚ
  indicesToDelete : List ℕ
  badVals : List RawVal
deriving DecidableEq, Repr

/-- The regression branch of `_prepare_for_training` (lines 145-168):
scan the targets, then, if any index was recorded for deletion, keep
only the feature rows whose index avoids the recorded set
(`X = [row for idx, row in enumerate(X) if idx not in indices_to_delete]`). -/
def prepareRegression {α : Type} (X : List α) (yraw : List RawVal) : PrepResult α :=
  let r := floatScanFrom 0 yraw
  let keptX :=
    if 0 < r.2.1.length then
      ((List.enumFrom 0 X).filter (fun p => decide (p.1 ∉ r.2.1))).map Prod.snd
    else X
  ⟨keptX, r.1, r.2.1, r.2.2⟩

/-- The classifier branch of `_prepare_for_training` (lines 136-143):
the whole coercion loop is wrapped in one `try`, so a single failing
`int(val)` aborts the loop before `y = y_ints` runs and the original
sequence is kept unchanged in its entirety. -/
def intScan : List RawVal → Option (List ℤ)
  | [] => some []
  | v :: rest =>
      match pyInt v, intScan rest with
      | some n, some ns => some (n :: ns)
      | _, _ => none

def prepareClassifierY (y : List RawVal) : List RawVal :=
  match intScan y with
  | some ns => ns.map (fun (n : ℤ) => RawVal.vnum (n : ℚ))
  | none => y

/-- Modelled from the spec (§4.3, §7): the per-record best-effort
coercion the specification describes for classification targets — each
value that coerces is replaced by its integer label, each value that
fails is retained individually.  Used only to compare the spec's wording
against the code's all-or-nothing behaviour. -/
def classifierYPerRecordSpec (y : List RawVal) : List RawVal :=
  y.map (fun v =>
    match pyInt v with
    | some n => RawVal.vnum (n : ℚ)
    | none => v)

/-!
## Estimator-kind normalisation (`Predictor.__init__`, lines 21-28)
-/

def regressorSynonyms : List String :=
  ["regressor", "regression", "regressions", "regressors", "number", "numeric", "continuous"]

def classifierSynonyms : List String :=
  ["classifier", "classification", "categorizer", "categorization", "categories",
   "labels", "labeled", "label"]

/-- Python `str.lower()` (the inputs here are ASCII identifiers). -/
def pyLower (s : String) : String :=
  ⟨s.toList.map Char.toLower⟩

/-- `__init__`'s normalisation of `type_of_estimator`: lower-case the
input, store `regressor` or `classifier` on a synonym match, raise
`ValueError` otherwise. -/
def initTypeOfEstimator (typeOfEstimator : String) : Except PyErr String :=
  if pyLower typeOfEstimator ∈ regressorSynonyms then .ok "regressor"
  else if pyLower typeOfEstimator ∈ classifierSynonyms then .ok "classifier"
  else .error .valueError

/-!
## Estimator names and the search space
(`_get_estimator_names`, lines 99-122; `_construct_pipeline_search_params`,
lines 75-96)
-/

/-- `_get_estimator_names`.  The regressor branch reads
`self.compute_power`; the classifier branch reads the bare name
`compute_power`, which is bound nowhere, so evaluating
`compute_power < 7` raises `NameError` before anything is returned.
Any other stored kind reaches `raise('TypeError: ...')`, which raises a
`TypeError` (raising a plain string is itself a `TypeError`). -/
def getEstimatorNames (typeOfEstimator : String) (computePower : ℤ) :
    Except PyErr (List String) :=
  if typeOfEstimator = "regressor" then
    if computePower < 7 then .ok ["Ridge", "XGBRegressor"]
    else .ok ["Ridge", "XGBRegressor", "RANSACRegressor", "RandomForestRegressor",
              "LinearRegression", "AdaBoostRegressor", "ExtraTreesRegressor"]
  else if typeOfEstimator = "classifier" then .error .nameError
  else .error .typeError

/-- The hyperparameter grid `_construct_pipeline_search_params` builds:
each optional axis is `some` exactly when the code inserts that key into
`gs_params`; the `final_model__model_name` axis is always inserted. -/
structure GSParams where
  performGridSearchOnModel : Option (List Bool)
  truncateLargeValues : Option (List Bool)
  modelName : List String
  featureSelectionModel : Option (List String)
deriving DecidableEq, Repr

/-- `_construct_pipeline_search_params` (lines 75-96).  A user-supplied
name list is used only when truthy (non-empty); otherwise
`_get_estimator_names()` is called, which can raise. -/
def constructPipelineSearchParams (typeOfEstimator : String) (computePower : ℤ)
    (optimizeFinalModel : Bool) (userDefinedModelNames : Option (List String)) :
    Except PyErr GSParams :=
  let namesE : Except PyErr (List String) :=
    match userDefinedModelNames with
    | some (n :: ns) => .ok (n :: ns)
    | _ => getEstimatorNames typeOfEstimator computePower
  match namesE with
  | .error e => .error e
  | .ok names =>
      .ok { performGridSearchOnModel :=
              if optimizeFinalModel = true ∨ 5 ≤ computePower then some [true, false] else none
            truncateLargeValues :=
              if 3 ≤ computePower then some [true, false] else none
            modelName := names
            featureSelectionModel :=
              if 10 ≤ computePower then
                some ["SelectFromModel", "GenericUnivariateSelect", "KeepAll", "RFECV"]
              else none }

/-- The string keys present in the grid mapping. -/
def presentAxes (g : GSParams) : List String :=
  (if g.performGridSearchOnModel.isSome then ["final_model__perform_grid_search_on_model"] else [])
  ++ (if g.truncateLargeValues.isSome then ["scaler__truncate_large_values"] else [])
  ++ ["final_model__model_name"]
  ++ (if g.featureSelectionModel.isSome then ["feature_selection__feature_selection_model"] else [])

/-- The grid used for one per-family search
(`perform_grid_search_by_model_names`, lines 236-240): the search params
are rebuilt with all defaults (`optimize_final_model=False`,
`user_defined_model_names=None`) and then the `final_model__model_name`
axis is overwritten with the single family being searched. -/
def perFamilySearchParams (typeOfEstimator : String) (computePower : ℤ)
    (modelName : String) : Except PyErr GSParams :=
  match constructPipelineSearchParams typeOfEstimator computePower false none with
  | .error e => .error e
  | .ok g => .ok { g with modelName := [modelName] }

/-- The per-family loop of `perform_grid_search_by_model_names`: for
each family, build the per-family grid and run one grid search (the fit
itself is external; a completed search is recorded by its grid).  A
raised exception aborts the loop, so no later search runs. -/
def performGridSearches (typeOfEstimator : String) (computePower : ℤ) :
    List String → Except PyErr (List GSParams)
  | [] => .ok []
  | n :: ns =>
      match perFamilySearchParams typeOfEstimator computePower n with
      | .error e => .error e
      | .ok g =>
          match performGridSearches typeOfEstimator computePower ns with
          | .error e => .error e
          | .ok gs => .ok (g :: gs)

/-- `train`'s estimator-name resolution (lines 199-202): a truthy
`model_names` argument is used as is, otherwise
`_get_estimator_names()` is called. -/
def trainSelectNames (typeOfEstimator : String) (computePower : ℤ)
    (modelNames : Option (List String)) : Except PyErr (List String) :=
  match modelNames with
  | some (n :: ns) => .ok (n :: ns)
  | _ => getEstimatorNames typeOfEstimator computePower

/-- The estimator-name resolution and per-family searches of `train`
(lines 199-215): resolve the family names, then run the per-family
searches; its value is the list of completed grid searches.  `train`
reaches these lines only after the `self.take_log_of_y` attribute read
at line 187 succeeded — which, as `trainClassifierPath` below shows,
never happens for a classifier. -/
def trainSearchPhase (typeOfEstimator : String) (computePower : ℤ)
    (modelNames : Option (List String)) : Except PyErr (List GSParams) :=
  match trainSelectNames typeOfEstimator computePower modelNames with
  | .error e => .error e
  | .ok names => performGridSearches typeOfEstimator computePower names

/-!
## Pipeline assembly (`_construct_pipeline`, lines 48-72)

Only the stage names and their order matter to the claims; each stage's
configuration object is elided.
-/

def constructPipeline (hasUserInputFunc : Bool) (dateCols : List String)
    (performFeatureScaling performFeatureSelection : Bool) : List String :=
  (if hasUserInputFunc then ["user_func"] else [])
  ++ (if 0 < dateCols.length then ["date_feature_engineering"] else [])
  ++ ["basic_transform"]
  ++ (if performFeatureScaling then ["scaler"] else [])
  ++ ["dv"]
  ++ (if performFeatureSelection then ["feature_selection"] else [])
  ++ ["final_model"]

/-!
## Best-pipeline selection (`train`, lines 221-232)

Each entry of `self.grid_search_pipelines` is the list
`[holdout_score?] ++ [gs.best_score_] ++ [gs]` built at lines 278-293:
the holdout score is appended only when `X_test` and `y_test` are
truthy.  `train` runs
`sorted(self.grid_search_pipelines, key=lambda x: x[0], reverse=True)[0]`:
a stable descending sort keyed on the FIRST element only, followed by
taking the head — i.e. the earliest entry whose first score is maximal.
-/

structure GSPipelineResult where
  holdout : Option ℚ
  cv : ℚ
  gs : ℕ
deriving DecidableEq, Repr

/-- The sort key `x[0]`: the holdout score when one was recorded,
otherwise the cross-validation best score. -/
def scoreKey (e : GSPipelineResult) : ℚ :=
  match e.holdout with
  | some h => h
  | none => e.cv

/-- The full score tuple stored ahead of the grid-search object. -/
def scoreTuple (e : GSPipelineResult) : List ℚ :=
  match e.holdout with
  | some h => [h, e.cv]
  | none => [e.cv]

/-- `sorted(results, key=lambda x: x[0], reverse=True)[0]`: the fold
keeps the current best and replaces it only on a strictly greater key,
which is exactly the head of Python's stable descending sort. -/
def selectBestResult : List GSPipelineResult → Option GSPipelineResult
  | [] => none
  | e :: rest =>
      some (rest.foldl (fun best x => if scoreKey best < scoreKey x then x else best) e)

/-!
## Log-transform of regression targets (`train`, lines 179-189)
-/

/-- Mutable predictor fields relevant to claims about `train` aborting:
the retained pipeline reference and the recorded log-transform flag. -/
structure PredictorState where
  trainedPipeline : Option ℕ
  tookLogOfY : Bool
deriving DecidableEq, Repr

/-- `math.log(val)`: raises `ValueError` (math domain error) exactly on
non-positive input; the numeric value of the logarithm is supplied by
the parameter `lg`. -/
def mathLog (lg : ℚ → ℚ) (v : ℚ) : Except PyErr ℚ :=
  if v ≤ 0 then .error .valueError else .ok (lg v)

/-- The list comprehension `[math.log(val) for val in y]`: the first
failing element raises and discards the whole comprehension. -/
def logListComp (lg : ℚ → ℚ) : List ℚ → Except PyErr (List ℚ)
  | [] => .ok []
  | v :: rest =>
      match mathLog lg v with
      | .error e => .error e
      | .ok w =>
          match logListComp lg rest with
          | .error e => .error e
          | .ok ws => .ok (w :: ws)

/-- The regression path of `train` up to and including the log
transform (lines 185-189): clean the targets, then, when
`take_log_of_y` holds, run the log comprehension; only after it
succeeds is `self.took_log_of_y = True` executed.  The state is
returned alongside so that an abort demonstrably leaves it unchanged. -/
def trainRegressionTargets {α : Type} (lg : ℚ → ℚ) (st : PredictorState)
    (takeLogOfY : Bool) (X : List α) (yraw : List RawVal) :
    PredictorState × Except PyErr (List α × List ℚ) :=
  let r := prepareRegression X yraw
  if takeLogOfY then
    match logListComp lg r.keptY with
    | .error e => (st, .error e)
    | .ok ys => ({ st with tookLogOfY := true }, .ok (r.keptX, ys))
  else (st, .ok (r.keptX, r.keptY))

/-- The remainder of the regression path of `train` after target
preparation: the pipeline is constructed (line 194) and the searches
run and eventually set `self.trained_pipeline`, modelled by storing a
fresh pipeline reference — reached only when the log transform did not
raise. -/
def trainRegressionModel {α : Type} (lg : ℚ → ℚ) (st : PredictorState)
    (takeLogOfY : Bool) (X : List α) (yraw : List RawVal) (newPipeline : ℕ) :
    PredictorState × Except PyErr Unit :=
  match trainRegressionTargets lg st takeLogOfY X yraw with
  | (st1, .error e) => (st1, .error e)
  | (st1, .ok _) => ({ st1 with trainedPipeline := some newPipeline }, .ok ())

/-!
## The prediction facade (`predict`, lines 419-426)

`predict` obtains `predicted_vals` from the fitted pipeline and, when
`took_log_of_y` is set, runs
`for idx, val in predicted_vals: predicted_vals[idx] = math.exp(val)`.
The loop unpacks EACH ELEMENT of the sequence as a pair, so it is sound
only against outputs whose elements are pairs; on the enumerate shape
(element `i` is the pair `(i, vᵢ)`) it rewrites every element in place
to `exp vᵢ`.  Elements are modelled by `PyVal` over `ℝ` so that the
natural exponential and logarithm are the real ones.
-/

inductive PyVal where
  | rnum (x : ℝ)
  | pair (n : ℕ) (x : ℝ)

/-- The numeric content of an element of the prediction output. -/
def PyVal.valOf : PyVal → ℝ
  | .rnum x => x
  | .pair _ x => x

/-- The in-place loop of `predict` (lines 424-425), with the
transcendental function abstracted as `f`.  The cursor `k` advances
while elements are assigned at the unpacked index `n`; a non-pair
element fails the unpacking (`TypeError`), an out-of-range index fails
the assignment (`IndexError`), both modelled by `none`. -/
def expLoop (f : ℝ → ℝ) (l : List PyVal) (k : ℕ) : Option (List PyVal) :=
  if h : k < l.length then
    match l.get ⟨k, h⟩ with
    | .rnum _ => none
    | .pair n x =>
        if n < l.length then expLoop f (l.set n (.rnum (f x))) (k + 1) else none
  else some l
termination_by l.length - k
decreasing_by simp only [List.length_set]; omega

/-- `predict`'s post-processing of the pipeline's raw output. -/
def predictPost (f : ℝ → ℝ) (tookLogOfY : Bool) (rawPredictions : List PyVal) :
    Option (List PyVal) :=
  if tookLogOfY then expLoop f rawPredictions 0 else some rawPredictions

/-- The enumerate shape of a raw prediction output: element `i` is the
pair `(k + i, vᵢ)`; a validly-shaped output is `enumPairs vals 0`. -/
def enumPairs : List ℝ → ℕ → List PyVal
  | [], _ => []
  | v :: vs, k => .pair k v :: enumPairs vs (k + 1)

/-!
## The `take_log_of_y` attribute on the classifier path of `train`
(lines 35, 179-180, 187)

`__init__` assigns `self.took_log_of_y = False` (line 35) but never
`self.take_log_of_y`; that attribute is created only by the
regressor-guarded assignment at lines 179-180 of `train`.  `Option
Bool` models the attribute's state, `none` meaning never assigned.
-/

/-- The `take_log_of_y` attribute right after `__init__` (lines 29-46):
never assigned. -/
def initTakeLogOfYAttr : Option Bool := none

/-- Lines 179-180 of `train`
(`if self.type_of_estimator == 'regressor': self.take_log_of_y = take_log_of_y`):
the attribute is assigned only under the regressor guard. -/
def assignTakeLogOfY (typeOfEstimator : String) (takeLogOfYArg : Bool)
    (attr : Option Bool) : Option Bool :=
  if typeOfEstimator = "regressor" then some takeLogOfYArg else attr

/-- The attribute read `self.take_log_of_y` at line 187: reading an
attribute that has never been assigned raises `AttributeError`. -/
def readTakeLogOfY (attr : Option Bool) : Except PyErr Bool :=
  match attr with
  | none => .error .attributeError
  | some b => .ok b

/-- `math.log(val)` on a cleaned classifier target value: numeric
values behave as `mathLog`, a string argument raises `TypeError`. -/
def mathLogVal (lg : ℚ → ℚ) : RawVal → Except PyErr ℚ
  | .vnum q => mathLog lg q
  | .vstr _ => .error .typeError

/-- `[math.log(val) for val in y]` over cleaned classifier targets: the
first failing element raises and discards the whole comprehension. -/
def logListCompVals (lg : ℚ → ℚ) : List RawVal → Except PyErr (List ℚ)
  | [] => .ok []
  | v :: rest =>
      match mathLogVal lg v with
      | .error e => .error e
      | .ok w =>
          match logListCompVals lg rest with
          | .error e => .error e
          | .ok ws => .ok (w :: ws)

/-- The flow of `train` for a stored estimator kind `classifier`: the
regressor-guarded assignment (lines 179-180, which does not fire), then
target preparation (line 185; the classifier branch, lines 136-143,
never raises), then the `self.take_log_of_y` read at line 187, then —
when that read yields a truthy value — the log comprehension of line
188, and finally the estimator-name resolution and per-family searches
of lines 199-215 (pipeline assembly at line 194 is pure; it is
modelled by `constructPipeline`).  The attribute state is returned
alongside the outcome, showing the call never assigns it. -/
def trainClassifierPath (computePower : ℤ) (lg : ℚ → ℚ) (takeLogOfYArg : Bool)
    (attrIn : Option Bool) (yraw : List RawVal)
    (modelNames : Option (List String)) :
    Option Bool × Except PyErr (List GSParams) :=
  let attr := assignTakeLogOfY "classifier" takeLogOfYArg attrIn
  let y := prepareClassifierY yraw
  match readTakeLogOfY attr with
  | .error e => (attr, .error e)
  | .ok true =>
      match logListCompVals lg y with
      | .error e => (attr, .error e)
      | .ok _ => (attr, trainSearchPhase "classifier" computePower modelNames)
  | .ok false => (attr, trainSearchPhase "classifier" computePower modelNames)

/-!
## Helper lemmas
-/

lemma synonyms_disjoint : ∀ x ∈ classifierSynonyms, x ∉ regressorSynonyms := by
  decide

lemma constructPipelineSearchParams_isSome {t : String} {p : ℤ} {opt : Bool}
    {un : Option (List String)} {g : GSParams}
    (h : constructPipelineSearchParams t p opt un = .ok g) :
    (g.performGridSearchOnModel.isSome ↔ (opt = true ∨ 5 ≤ p)) ∧
    (g.truncateLargeValues.isSome ↔ 3 ≤ p) ∧
    (g.featureSelectionModel.isSome ↔ 10 ≤ p) := by
  unfold constructPipelineSearchParams at h
  rcases hn : (match un with
    | some (n :: ns) => (Except.ok (n :: ns) : Except PyErr (List String))
    | _ => getEstimatorNames t p) with e | names
  · rw [hn] at h
    exact absurd h (by simp)
  · rw [hn] at h
    simp only [Except.ok.injEq] at h
    subst h
    refine ⟨?_, ?_, ?_⟩ <;> split <;> simp_all

lemma presentAxes_model_name_mem (g : GSParams) :
    "final_model__model_name" ∈ presentAxes g := by
  simp [presentAxes]

/-!
## Claim theorems
-/

/-- C5: the grid built by `_construct_pipeline_search_params` contains
the scaler outlier-truncation axis exactly when the compute power is at
least 3, the inner-grid-search axis exactly when the compute power is at
least 5 or `optimize_final_model` was requested, and the
feature-selection-strategy axis exactly when the compute power is at
least 10. -/
theorem C5_axis_thresholds (t : String) (p : ℤ) (opt : Bool)
    (un : Option (List String)) (g : GSParams)
    (h : constructPipelineSearchParams t p opt un = .ok g) :
    (g.truncateLargeValues.isSome ↔ 3 ≤ p) ∧
    (g.performGridSearchOnModel.isSome ↔ (opt = true ∨ 5 ≤ p)) ∧
    (g.featureSelectionModel.isSome ↔ 10 ≤ p) := by
  obtain ⟨h1, h2, h3⟩ := constructPipelineSearchParams_isSome h
  exact ⟨h2, h1, h3⟩

/-- Witness for C5 at compute power 4 with `optimize_final_model`
requested: the truncation axis is present, the inner-grid-search axis is
present because it was requested, the feature-selection axis is not. -/
theorem C5_axis_thresholds_witness :
    ((some [true, false] : Option (List Bool)).isSome ↔ (3 : ℤ) ≤ 4) ∧
    ((some [true, false] : Option (List Bool)).isSome ↔ (true = true ∨ (5 : ℤ) ≤ 4)) ∧
    ((none : Option (List String)).isSome ↔ (10 : ℤ) ≤ 4) := by
  have h := C5_axis_thresholds "regressor" 4 true none
    ⟨some [true, false], some [true, false], ["Ridge", "XGBRegressor"], none⟩ rfl
  exact h

/-- C4: for compute powers `p ≤ p'`, every axis present in the grid
generated at power `p` is present in the grid generated at power `p'`
(the search space never loses an axis as compute power increases), and
in every per-family grid search the `final_model__model_name` axis is
present and holds exactly the one family being searched. -/
theorem C4_search_space_monotone (t : String) (opt : Bool)
    (un : Option (List String)) (p p' : ℤ) (name : String) :
    (∀ g g', p ≤ p' →
      constructPipelineSearchParams t p opt un = .ok g →
      constructPipelineSearchParams t p' opt un = .ok g' →
      presentAxes g ⊆ presentAxes g') ∧
    (∀ g, perFamilySearchParams t p name = .ok g →
      g.modelName = [name] ∧ "final_model__model_name" ∈ presentAxes g) := by
  constructor
  · intro g g' hpp hg hg'
    obtain ⟨hgs, htr, hfs⟩ := constructPipelineSearchParams_isSome hg
    obtain ⟨hgs', htr', hfs'⟩ := constructPipelineSearchParams_isSome hg'
    have m1 : g.performGridSearchOnModel.isSome → g'.performGridSearchOnModel.isSome := by
      intro h
      refine hgs'.mpr ?_
      rcases hgs.mp h with h' | h'
      · exact Or.inl h'
      · exact Or.inr (h'.trans hpp)
    have m2 : g.truncateLargeValues.isSome → g'.truncateLargeValues.isSome :=
      fun h => htr'.mpr ((htr.mp h).trans hpp)
    have m3 : g.featureSelectionModel.isSome → g'.featureSelectionModel.isSome :=
      fun h => hfs'.mpr ((hfs.mp h).trans hpp)
    intro x hx
    simp only [presentAxes, List.mem_append] at hx ⊢
    rcases hx with ((hx | hx) | hx) | hx
    · split at hx
      · left; left; left
        rw [if_pos (m1 (by assumption))]
        exact hx
      · simp at hx
    · split at hx
      · left; left; right
        rw [if_pos (m2 (by assumption))]
        exact hx
      · simp at hx
    · left; right; exact hx
    · split at hx
      · right
        rw [if_pos (m3 (by assumption))]
        exact hx
      · simp at hx
  · intro g hg
    unfold perFamilySearchParams at hg
    rcases hc : constructPipelineSearchParams t p false none with e | g0
    · rw [hc] at hg; exact absurd hg (by simp)
    · rw [hc] at hg
      simp only [Except.ok.injEq] at hg
      subst hg
      exact ⟨rfl, presentAxes_model_name_mem _⟩

/-- Witness for C4 at `p = 3 ≤ 5 = p'` on the regressor path (both
grids computed concretely), and for the per-family search of `Ridge`. -/
theorem C4_search_space_monotone_witness :
    presentAxes ⟨none, some [true, false], ["Ridge", "XGBRegressor"], none⟩ ⊆
      presentAxes ⟨some [true, false], some [true, false], ["Ridge", "XGBRegressor"], none⟩ ∧
    (GSParams.modelName ⟨none, some [true, false], ["Ridge"], none⟩ = ["Ridge"] ∧
      "final_model__model_name" ∈
        presentAxes ⟨none, some [true, false], ["Ridge"], none⟩) := by
  refine ⟨(C4_search_space_monotone "regressor" false none 3 5 "Ridge").1 _ _
    (by norm_num) rfl rfl,
    (C4_search_space_monotone "regressor" false none 3 5 "Ridge").2 _ rfl⟩

/-- Taken in isolation, the name-resolution-and-search lines 199-215
would raise `NameError` for a classifier (the classifier branch of
`_get_estimator_names` reads the unbound bare name `compute_power`)
whether `model_names` is absent, empty (falsy, so the lookup happens at
lines 199-202), or a non-empty list (the lookup happens inside
`_construct_pipeline_search_params` during the first per-family
search).  `train` never actually reaches these lines for a classifier:
it aborts earlier, at the line-187 attribute read — see
`trainClassifierPath`. -/
lemma trainSearchPhase_classifier_name_error (p : ℤ) (mns : Option (List String)) :
    trainSearchPhase "classifier" p mns = .error PyErr.nameError := by
  rcases mns with _ | (_ | ⟨n, ns⟩) <;>
    simp [trainSearchPhase, trainSelectNames, getEstimatorNames,
      performGridSearches, perFamilySearchParams, constructPipelineSearchParams]

/-- C6: `__init__` either normalises the stored estimator kind to
exactly `regressor` (for every case-insensitive regressor synonym) or
to exactly `classifier` (for every case-insensitive classifier
synonym), or raises `ValueError` for every string outside the two
synonym sets; every successful construction stores one of the two
canonical strings, so no third outcome exists. -/
theorem C6_estimator_kind_trichotomy (s : String) :
    (pyLower s ∈ regressorSynonyms → initTypeOfEstimator s = .ok "regressor") ∧
    (pyLower s ∈ classifierSynonyms → initTypeOfEstimator s = .ok "classifier") ∧
    (pyLower s ∉ regressorSynonyms → pyLower s ∉ classifierSynonyms →
      initTypeOfEstimator s = .error PyErr.valueError) ∧
    (∀ r, initTypeOfEstimator s = .ok r → r = "regressor" ∨ r = "classifier") := by
  refine ⟨?_, ?_, ?_, ?_⟩
  · intro h
    simp [initTypeOfEstimator, h]
  · intro h
    have h1 : pyLower s ∉ regressorSynonyms := fun hr => synonyms_disjoint _ h hr
    simp [initTypeOfEstimator, h, h1]
  · intro h1 h2
    simp [initTypeOfEstimator, h1, h2]
  · intro r hr
    unfold initTypeOfEstimator at hr
    split at hr
    · exact Or.inl (by simpa using hr.symm)
    · split at hr
      · exact Or.inr (by simpa using hr.symm)
      · exact absurd hr (by simp)

/-- Witness for C6: one synonym of each kind normalises as claimed, and
a string outside both synonym sets aborts with `ValueError`. -/
theorem C6_estimator_kind_trichotomy_witness :
    initTypeOfEstimator "NUMBER" = .ok "regressor" ∧
    initTypeOfEstimator "Labels" = .ok "classifier" ∧
    initTypeOfEstimator "banana" = .error PyErr.valueError := by
  refine ⟨(C6_estimator_kind_trichotomy "NUMBER").1 (by decide),
    (C6_estimator_kind_trichotomy "Labels").2.1 (by decide),
    (C6_estimator_kind_trichotomy "banana").2.2.1 (by decide) (by decide)⟩

/-- C8: for every combination of the builder's switches, the pipeline
contains the three mandatory stages basic cleaning (`basic_transform`),
vectorization (`dv`) and final estimator (`final_model`) in that
relative order, ends in the final estimator even when the optional
scaler or feature-selection stage is omitted, begins with the
user-transform stage when one is supplied, and contains the
date-expansion stage exactly when at least one date column is
registered. -/
theorem C8_pipeline_structure (hasUserInputFunc : Bool) (dateCols : List String)
    (scal sel : Bool) :
    List.Sublist ["basic_transform", "dv", "final_model"]
      (constructPipeline hasUserInputFunc dateCols scal sel) ∧
    (constructPipeline hasUserInputFunc dateCols scal sel).getLast? = some "final_model" ∧
    (hasUserInputFunc = true →
      (constructPipeline hasUserInputFunc dateCols scal sel).head? = some "user_func") ∧
    ("date_feature_engineering" ∈ constructPipeline hasUserInputFunc dateCols scal sel ↔
      dateCols ≠ []) := by
  rcases dateCols with _ | ⟨d, ds⟩ <;>
    cases hasUserInputFunc <;> cases scal <;> cases sel <;>
    simp [constructPipeline] <;> decide

/-- Witness for C8: with a user transform, one date column and both
optional stages enabled, the pipeline starts with the user stage. -/
theorem C8_pipeline_structure_witness :
    (constructPipeline true ["signup_date"] true true).head? = some "user_func" :=
  (C8_pipeline_structure true ["signup_date"] true true).2.2.1 rfl

lemma selectBestFold_mem (e : GSPipelineResult) (rest : List GSPipelineResult) :
    rest.foldl (fun best x => if scoreKey best < scoreKey x then x else best) e ∈
      e :: rest := by
  induction rest generalizing e with
  | nil => simp
  | cons a as ih =>
    simp only [List.foldl_cons]
    by_cases hc : scoreKey e < scoreKey a
    · rw [if_pos hc]
      rcases List.mem_cons.mp (ih a) with h1 | h1
      · rw [h1]; right; exact List.mem_cons_self _ _
      · right; exact List.mem_cons_of_mem _ h1
    · rw [if_neg hc]
      rcases List.mem_cons.mp (ih e) with h1 | h1
      · rw [h1]; exact List.mem_cons_self _ _
      · right; exact List.mem_cons_of_mem _ h1

lemma selectBestFold_le (e : GSPipelineResult) (rest : List GSPipelineResult) :
    ∀ x ∈ e :: rest,
      scoreKey x ≤
        scoreKey (rest.foldl (fun best x => if scoreKey best < scoreKey x then x else best) e) := by
  induction rest generalizing e with
  | nil =>
    intro x hx
    simp only [List.mem_singleton] at hx
    subst hx
    simp
  | cons a as ih =>
    intro x hx
    simp only [List.foldl_cons]
    have hea : scoreKey e ≤ scoreKey (if scoreKey e < scoreKey a then a else e) ∧
        scoreKey a ≤ scoreKey (if scoreKey e < scoreKey a then a else e) := by
      by_cases hc : scoreKey e < scoreKey a
      · rw [if_pos hc]; exact ⟨le_of_lt hc, le_refl _⟩
      · rw [if_neg hc]; exact ⟨le_refl _, le_of_not_lt hc⟩
    rcases List.mem_cons.mp hx with h | h
    · subst h
      exact le_trans hea.1 (ih _ _ (List.mem_cons_self _ _))
    · rcases List.mem_cons.mp h with h1 | h1
      · subst h1
        exact le_trans hea.2 (ih _ _ (List.mem_cons_self _ _))
      · exact ih _ _ (List.mem_cons_of_mem _ h1)

/-- C1 counterexample: two per-family results that tie on the holdout
score (the first score component) but differ on the cross-validation
score.  `sorted(..., key=lambda x: x[0], reverse=True)[0]` keys on the
first component only, so the code retains the earlier result, whose
score tuple `[1, 0]` is lexicographically strictly below the other
candidate's `[1, 5]` — the retained pipeline is not the one with the
lexicographically greatest score tuple. -/
theorem C1_counterexample :
    selectBestResult [⟨some 1, 0, 0⟩, ⟨some 1, 5, 1⟩] = some ⟨some 1, 0, 0⟩ ∧
    List.Lex (· < ·) (scoreTuple ⟨some 1, 0, 0⟩) (scoreTuple ⟨some 1, 5, 1⟩) := by
  constructor
  · decide
  · exact List.Lex.cons (List.Lex.rel (by norm_num))

/-- C1 as amended: after all requested families have been searched,
`train` retains exactly one per-family result — one whose FIRST score
component (the holdout score when holdout data was supplied, otherwise
the cross-validation best score) is greatest among all candidates; ties
in that first component may resolve to any maximal candidate, and later
tuple components are never compared. -/
theorem C1_selection_first_component (l : List GSPipelineResult) (h : l ≠ []) :
    ∃ e, selectBestResult l = some e ∧ e ∈ l ∧ ∀ x ∈ l, scoreKey x ≤ scoreKey e := by
  rcases l with _ | ⟨a, rest⟩
  · exact absurd rfl h
  · exact ⟨_, rfl, selectBestFold_mem a rest, selectBestFold_le a rest⟩

/-- Witness for the amended C1 on a concrete two-candidate run without
holdout data. -/
theorem C1_selection_first_component_witness :
    ∃ e, selectBestResult [⟨none, 2, 7⟩, ⟨none, 3, 8⟩] = some e ∧
      e ∈ [⟨none, 2, 7⟩, ⟨none, 3, 8⟩] ∧
      ∀ x ∈ [(⟨none, 2, 7⟩ : GSPipelineResult), ⟨none, 3, 8⟩], scoreKey x ≤ scoreKey e :=
  C1_selection_first_component [⟨none, 2, 7⟩, ⟨none, 3, 8⟩] (by simp)

lemma intScan_all_some {y : List RawVal} (h : ∀ v ∈ y, (pyInt v).isSome) :
    intScan y = some (y.map (fun v => (pyInt v).getD 0)) := by
  induction y with
  | nil => rfl
  | cons v rest ih =>
    have hv := h v (List.mem_cons_self _ _)
    rcases hpv : pyInt v with _ | n
    · rw [hpv] at hv; simp at hv
    · have hr := ih (fun w hw => h w (List.mem_cons_of_mem _ hw))
      simp [intScan, hpv, hr]

lemma intScan_none {y : List RawVal} (h : ∃ v ∈ y, pyInt v = none) :
    intScan y = none := by
  induction y with
  | nil => simp at h
  | cons v rest ih =>
    rcases h with ⟨w, hw, hnone⟩
    rcases List.mem_cons.mp hw with h1 | h1
    · subst h1
      simp [intScan, hnone]
    · have hr := ih ⟨w, h1, hnone⟩
      rcases hpv : pyInt v with _ | n <;> simp [intScan, hpv, hr]

lemma intScan_length {y : List RawVal} {ns : List ℤ} (h : intScan y = some ns) :
    ns.length = y.length := by
  induction y generalizing ns with
  | nil => simp [intScan] at h; simp [← h]
  | cons v rest ih =>
    unfold intScan at h
    rcases hpv : pyInt v with _ | n <;> rw [hpv] at h
    · simp at h
    · rcases hr : intScan rest with _ | ms <;> rw [hr] at h
      · simp at h
      · simp only [Option.some.injEq] at h
        subst h
        simp [ih hr]

/-- C7 counterexample: classification targets `["1", "x"]`.  The spec's
per-record best-effort coercion would coerce `"1"` to the label `1` and
keep `"x"`; the code wraps the whole loop in one `try`, so the failure
on `"x"` discards `y_ints` and every value — including the coercible
`"1"` — is retained in its original form. -/
theorem C7_counterexample :
    prepareClassifierY [RawVal.vstr "1", RawVal.vstr "x"] =
      [RawVal.vstr "1", RawVal.vstr "x"] ∧
    classifierYPerRecordSpec [RawVal.vstr "1", RawVal.vstr "x"] =
      [RawVal.vnum 1, RawVal.vstr "x"] ∧
    prepareClassifierY [RawVal.vstr "1", RawVal.vstr "x"] ≠
      classifierYPerRecordSpec [RawVal.vstr "1", RawVal.vstr "x"] := by
  refine ⟨by decide, by decide, by decide⟩

/-- C7 as amended: classification-target preparation is all-or-nothing
— when every value coerces to an integer, every value is replaced by
its integer label; when any single value fails to coerce, the entire
original sequence (coercible values included) is silently retained
unchanged.  It is never fatal and no record is ever dropped (the length
is always preserved). -/
theorem C7_classifier_coercion_all_or_nothing (y : List RawVal) :
    (prepareClassifierY y).length = y.length ∧
    ((∀ v ∈ y, (pyInt v).isSome) →
      prepareClassifierY y = y.map (fun v => RawVal.vnum (((pyInt v).getD 0 : ℤ) : ℚ))) ∧
    ((∃ v ∈ y, pyInt v = none) → prepareClassifierY y = y) := by
  refine ⟨?_, ?_, ?_⟩
  · unfold prepareClassifierY
    rcases hs : intScan y with _ | ns
    · rfl
    · rw [List.length_map]
      exact intScan_length hs
  · intro h
    simp only [prepareClassifierY, intScan_all_some h, List.map_map]
    rfl
  · intro h
    unfold prepareClassifierY
    rw [intScan_none h]

/-- Witness for the amended C7: all-coercible targets are all replaced,
and one failing target keeps the whole sequence unchanged. -/
theorem C7_classifier_coercion_witness :
    prepareClassifierY [RawVal.vstr "2"] =
      [RawVal.vstr "2"].map (fun v => RawVal.vnum (((pyInt v).getD 0 : ℤ) : ℚ)) ∧
    prepareClassifierY [RawVal.vstr "1", RawVal.vstr "x"] =
      [RawVal.vstr "1", RawVal.vstr "x"] :=
  ⟨(C7_classifier_coercion_all_or_nothing [RawVal.vstr "2"]).2.1 (by decide),
   (C7_classifier_coercion_all_or_nothing [RawVal.vstr "1", RawVal.vstr "x"]).2.2
     (by decide)⟩

lemma logListComp_error {lg : ℚ → ℚ} {ys : List ℚ} (h : ∃ v ∈ ys, v ≤ 0) :
    logListComp lg ys = .error PyErr.valueError := by
  induction ys with
  | nil => simp at h
  | cons a as ih =>
    rcases h with ⟨w, hw, hle⟩
    rcases List.mem_cons.mp hw with h1 | h1
    · subst h1
      simp [logListComp, mathLog, hle]
    · by_cases ha : a ≤ 0
      · simp [logListComp, mathLog, ha]
      · simp [logListComp, mathLog, ha, ih ⟨w, h1, hle⟩]

/-- C10: on the regression path with `take_log_of_y` (its default
`True`), a cleaned target value `≤ 0` makes the comprehension
`[math.log(val) for val in y]` raise `ValueError` (math domain error);
`train` aborts there — before `self.took_log_of_y = True` (line 189!)
and before the pipeline is constructed (line 194) or fitted — so the
previously retained pipeline and the `took_log_of_y` flag are both left
unchanged. -/
theorem C10_log_domain_error {α : Type} (lg : ℚ → ℚ) (st : PredictorState)
    (X : List α) (yraw : List RawVal) (newPipeline : ℕ)
    (hbad : ∃ v ∈ (prepareRegression X yraw).keptY, v ≤ 0) :
    trainRegressionModel lg st true X yraw newPipeline = (st, .error PyErr.valueError) := by
  simp [trainRegressionModel, trainRegressionTargets, logListComp_error hbad]

/-- Witness for C10: a single zero target aborts a regression `train`
call and leaves the fresh predictor state untouched. -/
theorem C10_log_domain_error_witness :
    trainRegressionModel id ⟨none, false⟩ true [()] [RawVal.vnum 0] 1 =
      (⟨none, false⟩, .error PyErr.valueError) :=
  C10_log_domain_error id ⟨none, false⟩ [()] [RawVal.vnum 0] 1 (by decide)

lemma get_append_cons {α : Type} (done : List α) (x : α) (rest : List α)
    (h : done.length < (done ++ x :: rest).length) :
    (done ++ x :: rest).get ⟨done.length, h⟩ = x := by
  induction done with
  | nil => rfl
  | cons d ds ih => exact ih _

lemma set_append_cons {α : Type} (done : List α) (x y : α) (rest : List α) :
    (done ++ x :: rest).set done.length y = done ++ y :: rest := by
  induction done with
  | nil => rfl
  | cons d ds ih => simp [List.set, ih]

lemma enumPairs_length (vals : List ℝ) : ∀ k, (enumPairs vals k).length = vals.length := by
  induction vals with
  | nil => intro k; rfl
  | cons v vs ih => intro k; simp [enumPairs, ih]

lemma enumPairs_map_valOf (vals : List ℝ) :
    ∀ k, (enumPairs vals k).map PyVal.valOf = vals := by
  induction vals with
  | nil => intro k; rfl
  | cons v vs ih => intro k; simp [enumPairs, PyVal.valOf, ih]

lemma expLoop_enumPairs (f : ℝ → ℝ) (vals : List ℝ) :
    ∀ done : List PyVal,
      expLoop f (done ++ enumPairs vals done.length) done.length =
        some (done ++ vals.map (fun v => PyVal.rnum (f v))) := by
  induction vals with
  | nil =>
    intro done
    unfold expLoop
    rw [dif_neg (by simp [enumPairs])]
    simp [enumPairs]
  | cons v vs ih =>
    intro done
    have hlen : done.length < (done ++ enumPairs (v :: vs) done.length).length := by
      simp [enumPairs, enumPairs_length]
    unfold expLoop
    rw [dif_pos hlen]
    have hget : (done ++ enumPairs (v :: vs) done.length).get ⟨done.length, hlen⟩ =
        .pair done.length v := by
      simp only [enumPairs]
      exact get_append_cons done _ _ hlen
    rw [hget]
    simp only [enumPairs]
    rw [if_pos (by simpa only [enumPairs] using hlen)]
    rw [set_append_cons]
    have hrw : done ++ PyVal.rnum (f v) :: enumPairs vs (done.length + 1) =
        (done ++ [PyVal.rnum (f v)]) ++
          enumPairs vs (done ++ [PyVal.rnum (f v)]).length := by
      simp
    rw [hrw]
    have hk : done.length + 1 = (done ++ [PyVal.rnum (f v)]).length := by simp
    rw [hk, ih (done ++ [PyVal.rnum (f v)])]
    simp

/-- C3: with the log transform recorded (`took_log_of_y` true), for
every validly-shaped raw pipeline output — one on which the in-place
unpacking loop `for idx, val in predicted_vals` is sound, i.e. element
`i` is the pair `(i, vᵢ)` — `predict` returns the element-wise natural
exponential of the raw prediction values, and taking the natural
logarithm of each returned value recovers exactly the raw prediction
values. -/
theorem C3_predict_log_roundtrip (vals : List ℝ) :
    ∃ out, predictPost Real.exp true (enumPairs vals 0) = some out ∧
      out = vals.map (fun v => PyVal.rnum (Real.exp v)) ∧
      out.map (fun p => Real.log p.valOf) =
        (enumPairs vals 0).map (fun p => p.valOf) := by
  refine ⟨vals.map (fun v => PyVal.rnum (Real.exp v)), ?_, rfl, ?_⟩
  · have h := expLoop_enumPairs Real.exp vals []
    simpa [predictPost] using h
  · rw [List.map_map, enumPairs_map_valOf]
    have : ((fun p => Real.log (PyVal.valOf p)) ∘ fun v => PyVal.rnum (Real.exp v)) =
        fun v => Real.log (Real.exp v) := rfl
    rw [this]
    simp [Real.log_exp]

lemma floatScanFrom_floats (y : List RawVal) :
    ∀ k, (floatScanFrom k y).1 = y.filterMap pyFloat := by
  induction y with
  | nil => intro k; rfl
  | cons v rest ih =>
    intro k
    rcases hpv : pyFloat v with _ | q <;>
      simp [floatScanFrom, hpv, List.filterMap_cons, ih]

lemma floatScanFrom_bads (y : List RawVal) :
    ∀ k, (floatScanFrom k y).2.2 = y.filter (fun v => (pyFloat v).isNone) := by
  induction y with
  | nil => intro k; rfl
  | cons v rest ih =>
    intro k
    rcases hpv : pyFloat v with _ | q <;>
      simp [floatScanFrom, hpv, List.filter_cons, ih]

lemma floatScanFrom_idx (y : List RawVal) :
    ∀ k, (floatScanFrom k y).2.1 =
      ((List.enumFrom k y).filter (fun p => (pyFloat p.2).isNone)).map Prod.fst := by
  induction y with
  | nil => intro k; rfl
  | cons v rest ih =>
    intro k
    rcases hpv : pyFloat v with _ | q <;>
      simp [floatScanFrom, hpv, List.enumFrom, List.filter_cons, ih]

lemma enumFrom_fst_le {α : Type} (X : List α) :
    ∀ (m : ℕ) (p : ℕ × α), p ∈ List.enumFrom m X → m ≤ p.1 := by
  induction X with
  | nil => intro m p h; simp [List.enumFrom] at h
  | cons x xs ih =>
    intro m p h
    rcases List.mem_cons.mp h with h1 | h1
    · rw [h1]
    · exact Nat.le_of_succ_le (ih (m + 1) p h1)

lemma floatScanFrom_idx_le (y : List RawVal) (k i : ℕ)
    (h : i ∈ (floatScanFrom k y).2.1) : k ≤ i := by
  rw [floatScanFrom_idx] at h
  obtain ⟨p, hp, rfl⟩ := List.mem_map.mp h
  exact enumFrom_fst_le y k p (List.mem_filter.mp hp).1

lemma keptX_zip {α : Type} (y : List RawVal) :
    ∀ (k : ℕ) (X : List α), X.length = y.length →
      ((List.enumFrom k X).filter
          (fun p => decide (p.1 ∉ (floatScanFrom k y).2.1))).map Prod.snd =
        ((X.zip y).filter (fun p => (pyFloat p.2).isSome)).map Prod.fst := by
  induction y with
  | nil =>
    intro k X hlen
    rcases X with _ | ⟨x, xs⟩
    · rfl
    · simp at hlen
  | cons v rest ih =>
    intro k X hlen
    rcases X with _ | ⟨x, xs⟩
    · simp at hlen
    · have hlen' : xs.length = rest.length := by simpa using hlen
      have htail : ∀ p ∈ List.enumFrom (k + 1) xs, k + 1 ≤ p.1 :=
        fun p hp => enumFrom_fst_le xs (k + 1) p hp
      have henum : List.enumFrom k (x :: xs) = (k, x) :: List.enumFrom (k + 1) xs := rfl
      rcases hpv : pyFloat v with _ | q
      · -- the head target fails coercion: index k is recorded and row x dropped
        have hsc : (floatScanFrom k (v :: rest)).2.1 =
            k :: (floatScanFrom (k + 1) rest).2.1 := by
          simp [floatScanFrom, hpv]
        rw [hsc, henum, List.filter_cons]
        rw [if_neg (by simp)]
        have hcongr : (List.enumFrom (k + 1) xs).filter
            (fun p => decide (p.1 ∉ k :: (floatScanFrom (k + 1) rest).2.1)) =
            (List.enumFrom (k + 1) xs).filter
              (fun p => decide (p.1 ∉ (floatScanFrom (k + 1) rest).2.1)) := by
          refine List.filter_congr (fun p hp => ?_)
          have hne : p.1 ≠ k := by
            have := htail p hp
            omega
          simp [hne]
        rw [hcongr, ih (k + 1) xs hlen']
        simp [List.zip_cons_cons, List.filter_cons, hpv]
      · -- the head target coerces: index k is not recorded and row x kept
        have hsc : (floatScanFrom k (v :: rest)).2.1 =
            (floatScanFrom (k + 1) rest).2.1 := by
          simp [floatScanFrom, hpv]
        have hnotmem : k ∉ (floatScanFrom (k + 1) rest).2.1 := by
          intro hc
          have := floatScanFrom_idx_le rest (k + 1) k hc
          omega
        rw [hsc, henum, List.filter_cons]
        rw [if_pos (by simpa using hnotmem)]
        rw [List.map_cons, ih (k + 1) xs hlen']
        simp [List.zip_cons_cons, List.filter_cons, hpv]

lemma floatScanFrom_idx_bads_len (y : List RawVal) :
    ∀ k, (floatScanFrom k y).2.1.length = (floatScanFrom k y).2.2.length := by
  induction y with
  | nil => intro k; rfl
  | cons v rest ih =>
    intro k
    rcases hpv : pyFloat v with _ | q <;> simp [floatScanFrom, hpv, ih]

lemma zipFilter_keptX_length {α : Type} (y : List RawVal) :
    ∀ (X : List α), X.length = y.length →
      (((X.zip y).filter (fun p => (pyFloat p.2).isSome)).map Prod.fst).length =
        (y.filterMap pyFloat).length := by
  induction y with
  | nil =>
    intro X h
    rcases X with _ | ⟨x, xs⟩
    · rfl
    · simp at h
  | cons v rest ih =>
    intro X h
    rcases X with _ | ⟨x, xs⟩
    · simp at h
    · have h' : xs.length = rest.length := by simpa using h
      rcases hpv : pyFloat v with _ | q <;>
        simp [List.zip_cons_cons, List.filter_cons, List.filterMap_cons, hpv, ih xs h']

lemma filterMap_pyFloat_lt (y : List RawVal) (h : ∃ v ∈ y, pyFloat v = none) :
    (y.filterMap pyFloat).length < y.length := by
  induction y with
  | nil => simp at h
  | cons v rest ih =>
    rcases h with ⟨w, hw, hnone⟩
    rcases List.mem_cons.mp hw with h1 | h1
    · subst h1
      rw [List.filterMap_cons, hnone, List.length_cons]
      exact Nat.lt_succ_of_le (List.length_filterMap_le _ _)
    · rcases hpv : pyFloat v with _ | q
      · rw [List.filterMap_cons, hpv, List.length_cons]
        exact Nat.lt_succ_of_le (List.length_filterMap_le _ _)
      · rw [List.filterMap_cons, hpv, List.length_cons, List.length_cons]
        exact Nat.succ_lt_succ (ih ⟨w, h1, hnone⟩)

/-- C2: on the regression path, when the feature and target sequences
are parallel and at least one target fails float coercion,
`_prepare_for_training` keeps exactly the records whose target coerces
(in their original order, targets coerced to floats), drops the records
at the failing indices from BOTH sequences, reports exactly the failing
indices (paired positionally by `enumerate`) and the offending original
values, and returns feature/target sequences of equal, strictly reduced
length. -/
theorem C2_prepare_regression {α : Type} (X : List α) (yraw : List RawVal)
    (hlen : X.length = yraw.length) (hbad : ∃ v ∈ yraw, pyFloat v = none) :
    (prepareRegression X yraw).keptY = yraw.filterMap pyFloat ∧
    (prepareRegression X yraw).keptX =
      ((X.zip yraw).filter (fun p => (pyFloat p.2).isSome)).map Prod.fst ∧
    (prepareRegression X yraw).indicesToDelete =
      ((List.enumFrom 0 yraw).filter (fun p => (pyFloat p.2).isNone)).map Prod.fst ∧
    (prepareRegression X yraw).badVals = yraw.filter (fun v => (pyFloat v).isNone) ∧
    (prepareRegression X yraw).keptX.length = (prepareRegression X yraw).keptY.length ∧
    (prepareRegression X yraw).keptY.length < yraw.length := by
  obtain ⟨w, hw, hwn⟩ := hbad
  have hpos : 0 < (floatScanFrom 0 yraw).2.1.length := by
    rw [floatScanFrom_idx_bads_len, floatScanFrom_bads]
    have hmem : w ∈ yraw.filter (fun v => (pyFloat v).isNone) :=
      List.mem_filter.mpr ⟨hw, by simp [hwn]⟩
    exact List.length_pos.mpr (List.ne_nil_of_mem hmem)
  have h1 : (prepareRegression X yraw).keptY = yraw.filterMap pyFloat :=
    floatScanFrom_floats yraw 0
  have h2 : (prepareRegression X yraw).keptX =
      ((X.zip yraw).filter (fun p => (pyFloat p.2).isSome)).map Prod.fst := by
    show (if 0 < (floatScanFrom 0 yraw).2.1.length then
        ((List.enumFrom 0 X).filter
          (fun p => decide (p.1 ∉ (floatScanFrom 0 yraw).2.1))).map Prod.snd
      else X) = _
    rw [if_pos hpos]
    exact keptX_zip yraw 0 X hlen
  refine ⟨h1, h2, floatScanFrom_idx yraw 0, floatScanFrom_bads yraw 0, ?_, ?_⟩
  · rw [h1, h2]
    exact zipFilter_keptX_length yraw X hlen
  · rw [h1]
    exact filterMap_pyFloat_lt yraw ⟨w, hw, hwn⟩

/-- Witness for C2 on the specification's own example (with the output
column already split off): rows `["row0", "row1"]` with targets
`["10", "bad"]` keep only row 0, the target sequence becomes `[10.0]`,
and index 1 with value `"bad"` is reported. -/
theorem C2_prepare_regression_witness :
    (prepareRegression ["row0", "row1"] [RawVal.vstr "10", RawVal.vstr "bad"]).keptY =
      [RawVal.vstr "10", RawVal.vstr "bad"].filterMap pyFloat ∧
    (prepareRegression ["row0", "row1"] [RawVal.vstr "10", RawVal.vstr "bad"]).keptX =
      (((["row0", "row1"]).zip [RawVal.vstr "10", RawVal.vstr "bad"]).filter
        (fun p => (pyFloat p.2).isSome)).map Prod.fst ∧
    (prepareRegression ["row0", "row1"]
        [RawVal.vstr "10", RawVal.vstr "bad"]).indicesToDelete =
      ((List.enumFrom 0 [RawVal.vstr "10", RawVal.vstr "bad"]).filter
        (fun p => (pyFloat p.2).isNone)).map Prod.fst ∧
    (prepareRegression ["row0", "row1"] [RawVal.vstr "10", RawVal.vstr "bad"]).badVals =
      [RawVal.vstr "10", RawVal.vstr "bad"].filter (fun v => (pyFloat v).isNone) ∧
    (prepareRegression ["row0", "row1"] [RawVal.vstr "10", RawVal.vstr "bad"]).keptX.length =
      (prepareRegression ["row0", "row1"] [RawVal.vstr "10", RawVal.vstr "bad"]).keptY.length ∧
    (prepareRegression ["row0", "row1"] [RawVal.vstr "10", RawVal.vstr "bad"]).keptY.length <
      [RawVal.vstr "10", RawVal.vstr "bad"].length :=
  C2_prepare_regression ["row0", "row1"] [RawVal.vstr "10", RawVal.vstr "bad"]
    rfl (by decide)

/-- C9 counterexample: a concrete classifier `train` call (fresh
instance, target sequence `[1]`, compute power 3, default
`take_log_of_y=True`, an explicit `model_names` list).  The claim says
the call raises `NameError` from the bare `compute_power` read in
`_get_estimator_names`; in fact the regressor guard at lines 179-180
never assigns `self.take_log_of_y` for a classifier, so the read at
line 187 raises `AttributeError` first and the name lookup is never
reached — and `AttributeError` is not the claimed unbound-name error. -/
theorem C9_counterexample :
    trainClassifierPath 3 id true initTakeLogOfYAttr [RawVal.vnum 1]
        (some ["RidgeClassifier"]) =
      (initTakeLogOfYAttr, .error PyErr.attributeError) ∧
    PyErr.attributeError ≠ PyErr.nameError := by
  exact ⟨rfl, by decide⟩

/-- C9 as amended: for every Predictor whose stored estimator kind is
`classifier`, every call to `train` raises `AttributeError` while
reading the never-assigned instance field `take_log_of_y` at line 187
— for every compute power, `take_log_of_y` argument, target sequence,
and `model_names` argument (absent, empty, or non-empty) — before the
estimator-name lookup of lines 199-202 and before any grid search
starts, so no classifier pipeline can ever be trained.  The attribute
enters the first call as `initTakeLogOfYAttr` (`__init__` assigns only
the differently named `took_log_of_y`), and the returned state shows
the call does not assign it either, so every later call on the same
instance satisfies the same equation. -/
theorem C9_classifier_train_attribute_error (p : ℤ) (lg : ℚ → ℚ)
    (takeLogOfYArg : Bool) (yraw : List RawVal) (mns : Option (List String)) :
    trainClassifierPath p lg takeLogOfYArg initTakeLogOfYAttr yraw mns =
      (initTakeLogOfYAttr, .error PyErr.attributeError) := rfl
